import Mathlib

/-!
Shallow embedding of the session controller of the frostbyte_terminal
repository (`src/frostbyte_term/src/ui.rs`) together with proofs about its
message-processing behaviour.

Modelling conventions:
* `BTreeMap<u32, LocalTerminal>` — the controller never inspects a
  `LocalTerminal` value beyond calling its opaque `update`/`focus` methods, so
  the map is embedded as its key set, a `Finset Nat`.  `iter().next()` on a
  `BTreeMap` yields the entry with the least key, embedded as `Finset.min'`.
* `Task<Message>` — embedded as a `List Cmd` of follow-up commands;
  `Task::none()` is `[]` and `Task::batch` is list concatenation in argument
  order.
* `u32` — embedded as `Nat` with arithmetic taken modulo `2 ^ 32` where the
  source increments (`new_terminal_id += 1` wraps in release builds).
* `window::Id` — iced allocates fresh opaque window ids (`window::open`,
  `window::Id::unique()`); embedded as a counter `next_window` in the state.
* The terminal engine (`mod local_terminal`; its source file is not part of
  the tree) is external: the action its `update` returns is carried in the
  incoming message as the environment's choice, and is only consulted when
  the addressed tab exists, exactly as in `UI::update`.
-/

namespace Frostbyte

/-- Windowing backend (`enum Mode` in ui.rs): a winit-managed window or the
Wayland layer-shell surface variant. -/
inductive Mode where
  | Winit
  | Layershell
deriving DecidableEq

/-- Action returned by a terminal tab's own update step.
Modelled from the spec: the terminal engine contract (§6) says
`update(msg) -> Action ∈ {Close, Run(task), None}`; the engine's source file
`local_terminal.rs` is not in the tree. -/
inductive LTAction where
  | close
  | run
  | none_
deriving DecidableEq

/-- Messages of `enum Message` in ui.rs.  The layer-shell variants generated
by `to_layer_message` are all `unreachable!()` in `UI::update` and are not
modelled.  `localTerminal` carries the action the external terminal engine
would return from its `update`, chosen by the environment. -/
inductive Message where
  | localTerminal (id : Nat) (action : LTAction)
  | openTab
  | switchTab (id : Nat)
  | focusTab (id : Nat)
  | closeTab (id : Nat)
  | hotkey
  | windowOpened (id : Nat)
  | closeWindow
  | windowClosed
  | shutdown
  | dummy
deriving DecidableEq

/-- Follow-up commands handed back to the runtime (a `Task<Message>`).
`winOpen w` is the `window::open` task whose completion delivers
`WindowOpened w`; `deferFocusTab id` is the 50 ms-delayed future producing
`FocusTab id`; `termStartup`/`termFocus`/`termRun` are the external terminal
engine's startup, focus and follow-up tasks re-tagged with the tab id. -/
inductive Cmd where
  | winOpen (w : Nat)
  | winGainFocus (w : Nat)
  | winClose (w : Nat)
  | newLayerShell (w : Nat)
  | doneWindowOpened (w : Nat)
  | termStartup (id : Nat)
  | termFocus (id : Nat)
  | deferFocusTab (id : Nat)
  | termRun (id : Nat)
  | exit
deriving DecidableEq

/-- `2 ^ 32`, the modulus of the `u32` tab-id allocation counter. -/
def U32 : Nat := 4294967296

/-- The session controller state (`struct UI`).  The immutable hotkey
registration fields (`_hotkey_manager`, `hotkey`, `hotkey_id`, `_tray_icon`)
are resolved at startup and never read by any state transition, so they are
not part of the embedded state; the hotkey resolver is embedded separately
below. -/
structure UI where
  terminals : Finset Nat
  window_id : Option Nat
  selected_tab : Nat
  new_terminal_id : Nat
  next_window : Nat
  mode : Mode
deriving DecidableEq

/-- `UI::start_in_mode`: initial state — no window, empty tab map,
`selected_tab = 1`, `new_terminal_id = 1` (the returned task is
`Task::none()`). -/
def start_in_mode (mode : Mode) : UI :=
  { terminals := ∅
    window_id := none
    selected_tab := 1
    new_terminal_id := 1
    next_window := 0
    mode := mode }

/-- `UI::focus_tab`: a deferred task that sleeps 50 ms and then delivers
`FocusTab id`. -/
def focus_tab (id : Nat) : List Cmd :=
  [Cmd.deferFocusTab id]

/-- `UI::close_window`: if a window id is recorded, clear it and issue
`window::close`; otherwise do nothing. -/
def close_window (s : UI) : UI × List Cmd :=
  match s.window_id with
  | some id => ({ s with window_id := none }, [Cmd.winClose id])
  | none => (s, [])

/-- `UI::open_tab`: allocate the next tab id (current counter value, counter
then incremented — wrapping `u32` arithmetic), start a terminal, insert it,
select it, and batch the terminal startup task with a deferred focus. -/
def open_tab (s : UI) : UI × List Cmd :=
  let id := s.new_terminal_id
  ({ s with
      new_terminal_id := (s.new_terminal_id + 1) % U32
      terminals := insert id s.terminals
      selected_tab := id },
   [Cmd.termStartup id, Cmd.deferFocusTab id])

/-- `UI::open_window`: if a window already exists, just refocus it.
Otherwise create one (winit `window::open` or a layer-shell surface plus a
chained `WindowOpened`), record its id, and — if the tab map is empty —
additionally open a first tab, batching the tab's tasks before the window
task. -/
def open_window (s : UI) : UI × List Cmd :=
  match s.window_id with
  | some id => (s, [Cmd.winGainFocus id])
  | none =>
    let p : UI × List Cmd :=
      match s.mode with
      | Mode.Winit =>
        let id := s.next_window
        ({ s with window_id := some id, next_window := s.next_window + 1 },
         [Cmd.winOpen id])
      | Mode.Layershell =>
        let id := s.next_window
        ({ s with window_id := some id, next_window := s.next_window + 1 },
         [Cmd.newLayerShell id, Cmd.doneWindowOpened id])
    if p.1.terminals = ∅ then
      let q := open_tab p.1
      (q.1, q.2 ++ p.2)
    else
      p

/-- `UI::close_tab`: remove `id` from the tab map; if entries remain, select
the first (least) remaining key and schedule a deferred focus on it,
otherwise close the window. -/
def close_tab (s : UI) (id : Nat) : UI × List Cmd :=
  let t := s.terminals.erase id
  if h : t.Nonempty then
    let m := t.min' h
    ({ s with terminals := t, selected_tab := m }, focus_tab m)
  else
    close_window { s with terminals := t }

/-- `UI::switch_tab`: if `id` is a key of the tab map, select it and schedule
a deferred focus; otherwise do nothing. -/
def switch_tab (s : UI) (id : Nat) : UI × List Cmd :=
  if id ∈ s.terminals then
    ({ s with selected_tab := id }, focus_tab id)
  else
    (s, [])

/-- `UI::update`: the session controller's message dispatch. -/
def update (s : UI) (m : Message) : UI × List Cmd :=
  match m with
  | Message.localTerminal id action =>
    if id ∈ s.terminals then
      match action with
      | LTAction.close => close_tab s id
      | LTAction.run => (s, [Cmd.termRun id])
      | LTAction.none_ => (s, [])
    else
      (s, [])
  | Message.openTab => open_tab s
  | Message.switchTab id => switch_tab s id
  | Message.focusTab id =>
    if id ∈ s.terminals then (s, [Cmd.termFocus id]) else (s, [])
  | Message.closeTab id => close_tab s id
  | Message.hotkey =>
    if s.window_id.isSome then close_window s else open_window s
  | Message.windowOpened id =>
    if s.selected_tab ∈ s.terminals then
      (s, [Cmd.winGainFocus id, Cmd.termFocus s.selected_tab])
    else
      (s, [])
  | Message.closeWindow => close_window s
  | Message.windowClosed => ({ s with window_id := none }, [])
  | Message.shutdown => (s, [Cmd.exit])
  | Message.dummy => (s, [])

/-- Run a sequence of messages through the controller, keeping the state. -/
def runMsgs (s : UI) (ms : List Message) : UI :=
  ms.foldl (fun s m => (update s m).1) s

/-- State after `n` consecutive `open_tab` calls. -/
def openTabN (s : UI) : Nat → UI
  | 0 => s
  | n + 1 => (open_tab (openTabN s n)).1

/-- The tab id handed out by the `(n+1)`-st `open_tab` from the initial
state: the counter value just before that call. -/
def allocatedId (m : Mode) (n : Nat) : Nat :=
  (openTabN (start_in_mode m) n).new_terminal_id

/-! ## The hotkey resolver (`enum Hotkey` and its impls) -/

/-- The named keys of `iced::keyboard::key::Named` this program compares
against; `other` covers every remaining named key. -/
inductive NamedKey where
  | F12
  | Pause
  | other (n : Nat)
deriving DecidableEq

/-- `iced::keyboard::Key`. -/
inductive Key where
  | named (k : NamedKey)
  | character (s : String)
  | unidentified
deriving DecidableEq

/-- `iced::keyboard::Modifiers`: a bit set; equality is exact bitwise
equality, and `control`/`shift` test single bits. -/
structure Modifiers where
  shift : Bool
  control : Bool
  alt : Bool
  logo : Bool
deriving DecidableEq

/-- `iced::keyboard::Modifiers::empty()`. -/
def Modifiers.empty : Modifiers :=
  ⟨false, false, false, false⟩

/-- `iced::keyboard::Modifiers::ALT`. -/
def Modifiers.ALT : Modifiers :=
  ⟨false, false, true, false⟩

/-- `enum Hotkey` in ui.rs. -/
inductive Hotkey where
  | F12
  | AltF12
  | Pause
deriving DecidableEq

/-- Key codes of `global_hotkey::hotkey::Code` used by the program. -/
inductive GHCode where
  | F12
  | Pause
deriving DecidableEq

/-- Modifier sets of `global_hotkey::hotkey::Modifiers` used by the
program. -/
inductive GHModifiers where
  | ALT
deriving DecidableEq

/-- `impl Default for Hotkey`: `Pause` when the `DEBUG` environment variable
is present, else `F12` on `target_os = "linux"` and `AltF12` elsewhere.  The
environment marker and target platform are the two explicit inputs. -/
def Hotkey.default (debug : Bool) (linux : Bool) : Hotkey :=
  if debug then
    Hotkey.Pause
  else if linux then
    Hotkey.F12
  else
    Hotkey.AltF12

/-- `Hotkey::global_hotkey`: the OS-level registration binding. -/
def Hotkey.global_hotkey : Hotkey → Option GHModifiers × GHCode
  | Hotkey.F12 => (none, GHCode.F12)
  | Hotkey.AltF12 => (some GHModifiers.ALT, GHCode.F12)
  | Hotkey.Pause => (none, GHCode.Pause)

/-- `Hotkey::iced`: the in-window (key, modifiers) form of the binding. -/
def Hotkey.iced : Hotkey → Key × Modifiers
  | Hotkey.F12 => (Key.named NamedKey.F12, Modifiers.empty)
  | Hotkey.AltF12 => (Key.named NamedKey.F12, Modifiers.ALT)
  | Hotkey.Pause => (Key.named NamedKey.Pause, Modifiers.empty)

/-- `Hotkey::filter`: the software keyboard predicate — true on the fixed
ctrl+shift+T new-tab chord and on the resolved hotkey's exact (key,
modifiers) pair, false otherwise. -/
def Hotkey.filter (self : Hotkey) (key : Key) (modifiers : Modifiers) : Bool :=
  let hk := self.iced
  if key = Key.character "T" ∧ modifiers.control = true ∧ modifiers.shift = true then
    true
  else if key = hk.1 ∧ modifiers = hk.2 then
    true
  else
    false

/-- The selection invariant: a non-empty tab map contains the selected id. -/
def SelInv (s : UI) : Prop :=
  s.terminals.Nonempty → s.selected_tab ∈ s.terminals

/-- The state reached from startup by `OpenTab, OpenTab`: tabs `{1, 2}`,
selected tab `2`, no window.  Used to exercise messages that carry a tab id
absent from the map. -/
def c1State : UI :=
  { terminals := {1, 2}, window_id := none, selected_tab := 2,
    new_terminal_id := 3, next_window := 0, mode := Mode.Winit }

/-- The state reached from startup by one `Hotkey` toggle (winit mode):
window `0` open, tab map `{1}`, selected tab `1`. -/
def c7State : UI :=
  { terminals := {1}, window_id := some 0, selected_tab := 1,
    new_terminal_id := 2, next_window := 1, mode := Mode.Winit }

/-! ## Helper lemmas -/

/-- `close_window` changes only the recorded window id: tabs, selection and
the allocation counter are untouched, and the emitted task is `window::close`
on the previously recorded id, if any. -/
theorem close_window_frame (s : UI) :
    (close_window s).1.terminals = s.terminals ∧
    (close_window s).1.selected_tab = s.selected_tab ∧
    (close_window s).1.new_terminal_id = s.new_terminal_id ∧
    (close_window s).1.window_id = none ∧
    (close_window s).2 = (match s.window_id with
      | some w => [Cmd.winClose w]
      | none => []) := by
  cases h : s.window_id <;> simp [close_window, h]

/-- Unfolding one step of `runMsgs`. -/
theorem runMsgs_cons (s : UI) (m : Message) (ms : List Message) :
    runMsgs s (m :: ms) = runMsgs (update s m).1 ms := rfl

/-- `open_window` on a closed window records a fresh window id. -/
theorem open_window_opens (s : UI) (h : s.window_id = none) :
    (open_window s).1.window_id = some s.next_window := by
  simp only [open_window, h]
  cases hm : s.mode <;> simp only []
  · split
    · simp [open_tab]
    · rfl
  · split
    · simp [open_tab]
    · rfl

/-- One `Hotkey` toggle always flips whether a window exists. -/
theorem hotkey_flips_window (s : UI) :
    (update s Message.hotkey).1.window_id.isSome = ! s.window_id.isSome := by
  cases h : s.window_id with
  | some w =>
    have hs : s.window_id.isSome = true := by rw [h]; rfl
    simp only [update, hs, if_true, Bool.not_true]
    rw [(close_window_frame s).2.2.2.1]
    rfl
  | none =>
    have hs : s.window_id.isSome = false := by rw [h]; rfl
    simp only [update, hs, Bool.false_eq_true, if_false, Bool.not_false]
    rw [open_window_opens s h]
    rfl

/-- Window existence after `n` toggles is the initial existence xor the
parity of `n`. -/
theorem toggles_parity_aux (n : Nat) :
    ∀ s : UI, (runMsgs s (List.replicate n Message.hotkey)).window_id.isSome =
      Bool.xor s.window_id.isSome (decide (n % 2 = 1)) := by
  induction n with
  | zero =>
    intro s
    simp [runMsgs]
  | succ n ih =>
    intro s
    rw [List.replicate_succ, runMsgs_cons, ih, hotkey_flips_window]
    have hd : (decide ((n + 1) % 2 = 1)) = ! decide (n % 2 = 1) := by
      by_cases hn : n % 2 = 1
      · simp [hn, show (n + 1) % 2 = 0 from by omega]
      · simp [hn, show (n + 1) % 2 = 1 from by omega]
    rw [hd]
    cases hb : s.window_id.isSome <;> cases hc : decide (n % 2 = 1) <;> rfl

/-- `open_tab` establishes the selection invariant by selecting the tab it
inserts. -/
theorem selInv_open_tab (s : UI) : SelInv (open_tab s).1 := by
  intro _
  simp [open_tab]

/-- `close_window` preserves the selection invariant. -/
theorem selInv_close_window (s : UI) (h : SelInv s) : SelInv (close_window s).1 := by
  intro hne
  rw [(close_window_frame s).1, (close_window_frame s).2.1]
  exact h (by rwa [(close_window_frame s).1] at hne)

/-- `close_tab` re-establishes the selection invariant unconditionally: it
either selects the least remaining key or leaves the tab map empty. -/
theorem selInv_close_tab (s : UI) (id : Nat) : SelInv (close_tab s id).1 := by
  simp only [close_tab]
  split
  · rename_i hne
    intro _
    exact Finset.min'_mem _ hne
  · rename_i hne
    intro hne2
    rw [(close_window_frame _).1] at hne2
    exact absurd hne2 hne

/-- `open_window` preserves the selection invariant. -/
theorem selInv_open_window (s : UI) (h : SelInv s) : SelInv (open_window s).1 := by
  simp only [open_window]
  cases hw : s.window_id with
  | some w => exact h
  | none =>
    cases hm : s.mode <;> simp only []
    · split
      · exact selInv_open_tab _
      · intro hne
        exact h hne
    · split
      · exact selInv_open_tab _
      · intro hne
        exact h hne

/-- Every controller transition preserves the selection invariant. -/
theorem selInv_update (s : UI) (m : Message) (h : SelInv s) : SelInv (update s m).1 := by
  cases m with
  | localTerminal id a =>
    simp only [update]
    split
    · cases a with
      | close => exact selInv_close_tab s id
      | run => exact h
      | none_ => exact h
    · exact h
  | openTab => exact selInv_open_tab s
  | switchTab id =>
    simp only [update, switch_tab]
    split
    · rename_i hmem
      intro _
      exact hmem
    · exact h
  | focusTab id =>
    simp only [update]
    split
    · exact h
    · exact h
  | closeTab id => exact selInv_close_tab s id
  | hotkey =>
    simp only [update]
    split
    · exact selInv_close_window s h
    · exact selInv_open_window s h
  | windowOpened id =>
    simp only [update]
    split
    · exact h
    · exact h
  | closeWindow => exact selInv_close_window s h
  | windowClosed =>
    intro hne
    exact h hne
  | shutdown => exact h
  | dummy => exact h

/-- The selection invariant is preserved along any message sequence. -/
theorem selInv_runMsgs (ms : List Message) :
    ∀ s : UI, SelInv s → SelInv (runMsgs s ms) := by
  induction ms with
  | nil =>
    intro s h
    exact h
  | cons m ms ih =>
    intro s h
    exact ih _ (selInv_update s m h)

/-- Closed form of the allocation counter after `n` `open_tab` calls. -/
theorem openTabN_new_terminal_id (m : Mode) (n : Nat) :
    (openTabN (start_in_mode m) n).new_terminal_id = (1 + n) % U32 := by
  induction n with
  | zero =>
    show (1 : Nat) = (1 + 0) % U32
    simp [U32]
  | succ n ih =>
    show ((openTabN (start_in_mode m) n).new_terminal_id + 1) % U32 = (1 + (n + 1)) % U32
    rw [ih]
    simp only [U32]
    omega

/-- The id handed out by the `(n+1)`-st allocation, in closed form. -/
theorem allocatedId_closed_form (m : Mode) (n : Nat) :
    allocatedId m n = (1 + n) % U32 :=
  openTabN_new_terminal_id m n

/-- `close_tab` never touches the allocation counter. -/
theorem close_tab_new_terminal_id (s : UI) (id : Nat) :
    (close_tab s id).1.new_terminal_id = s.new_terminal_id := by
  simp only [close_tab]
  split
  · rfl
  · exact (close_window_frame _).2.2.1

/-- `open_window` keeps the allocation counter or bumps it once (when it
opens the first tab). -/
theorem open_window_new_terminal_id (s : UI) :
    (open_window s).1.new_terminal_id = s.new_terminal_id ∨
    (open_window s).1.new_terminal_id = (s.new_terminal_id + 1) % U32 := by
  simp only [open_window]
  cases hw : s.window_id with
  | some w => exact Or.inl rfl
  | none =>
    cases hm : s.mode <;> simp only []
    · split
      · exact Or.inr rfl
      · exact Or.inl rfl
    · split
      · exact Or.inr rfl
      · exact Or.inl rfl

/-! ## Claim theorems -/

/-- Claim C1, counterexample.  The claim says every message referencing an id
absent from the tab map is a silent no-op (state unchanged, no command).
This is false for `CloseTab`: in the reachable state with tabs `{1, 2}` and
selected tab `2` (two `OpenTab`s from startup), `CloseTab 5` — with `5` not a
tab — changes the selected tab to `1` and emits a deferred focus command. -/
theorem closeTab_unknown_id_not_silent :
    c1State.terminals =
      (runMsgs (start_in_mode Mode.Winit) [Message.openTab, Message.openTab]).terminals ∧
    c1State.selected_tab =
      (runMsgs (start_in_mode Mode.Winit) [Message.openTab, Message.openTab]).selected_tab ∧
    c1State.window_id =
      (runMsgs (start_in_mode Mode.Winit) [Message.openTab, Message.openTab]).window_id ∧
    5 ∉ c1State.terminals ∧
    (update c1State (Message.closeTab 5)).1 ≠ c1State ∧
    (update c1State (Message.closeTab 5)).2 ≠ [] := by decide

/-- Claim C1, amended.  For an id absent from the tab map: a per-tab terminal
message, `SwitchTab(id)` and `FocusTab(id)` are silent no-ops (state
unchanged, no command issued); `CloseTab(id)` leaves the tab map unchanged,
but when the map is non-empty it re-selects the least tab id and schedules a
deferred focus on it, and when the map is empty it closes the window (issuing
a window-close command) if one was open. -/
theorem unknown_id_message_behaviour (s : UI) (id : Nat) (a : LTAction)
    (h : id ∉ s.terminals) :
    update s (Message.localTerminal id a) = (s, []) ∧
    update s (Message.switchTab id) = (s, []) ∧
    update s (Message.focusTab id) = (s, []) ∧
    (update s (Message.closeTab id)).1.terminals = s.terminals ∧
    (∀ hne : s.terminals.Nonempty,
      (update s (Message.closeTab id)).1.selected_tab = s.terminals.min' hne ∧
      (update s (Message.closeTab id)).1.window_id = s.window_id ∧
      (update s (Message.closeTab id)).2 = [Cmd.deferFocusTab (s.terminals.min' hne)]) ∧
    (s.terminals = ∅ →
      (update s (Message.closeTab id)).1.selected_tab = s.selected_tab ∧
      (update s (Message.closeTab id)).1.window_id = none ∧
      ((update s (Message.closeTab id)).2 =
        match s.window_id with
        | some w => [Cmd.winClose w]
        | none => [])) := by
  have herase : s.terminals.erase id = s.terminals := Finset.erase_eq_of_not_mem h
  refine ⟨by simp [update, h], by simp [update, switch_tab, h], by simp [update, h], ?_, ?_, ?_⟩
  · simp only [update, close_tab, herase]
    split
    · rfl
    · exact (close_window_frame _).1
  · intro hne
    simp only [update, close_tab, herase, focus_tab]
    rw [dif_pos hne]
    exact ⟨rfl, rfl, rfl⟩
  · intro hemp
    have hne : ¬ (s.terminals.erase id).Nonempty := by
      rw [herase, hemp]
      exact Finset.not_nonempty_empty
    simp only [update, close_tab]
    rw [dif_neg hne]
    refine ⟨(close_window_frame _).2.1, (close_window_frame _).2.2.2.1,
      (close_window_frame _).2.2.2.2⟩

/-- Witness for the amended C1 theorem at tabs `{1, 2}`, unknown id `5`. -/
theorem unknown_id_message_behaviour_witness :
    (5 ∉ c1State.terminals) ∧
    update c1State (Message.localTerminal 5 LTAction.close) = (c1State, []) ∧
    (update c1State (Message.closeTab 5)).2 =
      [Cmd.deferFocusTab (c1State.terminals.min' (by decide))] :=
  ⟨by decide, (unknown_id_message_behaviour c1State 5 LTAction.close (by decide)).1,
    ((unknown_id_message_behaviour c1State 5 LTAction.close (by decide)).2.2.2.2.1
      (by decide)).2.2⟩

/-- Claim C2.  Starting from the initial state, after any number `n` of
`Hotkey` toggles the window exists iff `n` is odd, and a single toggle from
startup yields an open window, tab set exactly `{1}` and selected tab `1`. -/
theorem toggle_parity (mode : Mode) (n : Nat) :
    ((runMsgs (start_in_mode mode) (List.replicate n Message.hotkey)).window_id.isSome = true ↔
      Odd n) ∧
    (n = 1 →
      (runMsgs (start_in_mode mode)
        (List.replicate n Message.hotkey)).window_id.isSome = true ∧
      (runMsgs (start_in_mode mode) (List.replicate n Message.hotkey)).terminals = {1} ∧
      (runMsgs (start_in_mode mode) (List.replicate n Message.hotkey)).selected_tab = 1) := by
  constructor
  · rw [toggles_parity_aux]
    have h0 : (start_in_mode mode).window_id.isSome = false := rfl
    rw [h0, Nat.odd_iff]
    simp
  · rintro rfl
    cases mode <;> exact ⟨by decide, by decide, by decide⟩

/-- Witness for C2 at one toggle in winit mode. -/
theorem toggle_parity_witness :
    ((runMsgs (start_in_mode Mode.Winit)
        (List.replicate 1 Message.hotkey)).window_id.isSome = true ↔ Odd 1) ∧
    (runMsgs (start_in_mode Mode.Winit) (List.replicate 1 Message.hotkey)).terminals = {1} ∧
    (runMsgs (start_in_mode Mode.Winit) (List.replicate 1 Message.hotkey)).selected_tab = 1 :=
  ⟨(toggle_parity Mode.Winit 1).1, ((toggle_parity Mode.Winit 1).2 rfl).2.1,
    ((toggle_parity Mode.Winit 1).2 rfl).2.2⟩

/-- Claim C3.  Closing the only remaining tab empties the tab map and closes
the window, issuing `window::close` when a window was open. -/
theorem closeTab_last_tab_closes (s : UI) (i : Nat) (h : s.terminals = {i}) :
    (update s (Message.closeTab i)).1.terminals = ∅ ∧
    (update s (Message.closeTab i)).1.window_id = none ∧
    ∀ w, s.window_id = some w → (update s (Message.closeTab i)).2 = [Cmd.winClose w] := by
  have herase : s.terminals.erase i = ∅ := by
    rw [h]
    exact Finset.erase_singleton i
  have hne : ¬ (s.terminals.erase i).Nonempty := by
    rw [herase]
    exact Finset.not_nonempty_empty
  simp only [update, close_tab]
  rw [dif_neg hne]
  refine ⟨?_, (close_window_frame _).2.2.2.1, ?_⟩
  · rw [(close_window_frame _).1]
    exact herase
  · intro w hw
    rw [(close_window_frame _).2.2.2.2]
    simp [hw]

/-- Witness for C3 at tab map `{1}` with window `0` open. -/
theorem closeTab_last_tab_closes_witness :
    (⟨{1}, some 0, 1, 2, 1, Mode.Winit⟩ : UI).terminals = ({1} : Finset Nat) ∧
    (update (⟨{1}, some 0, 1, 2, 1, Mode.Winit⟩ : UI) (Message.closeTab 1)).1.terminals = ∅ ∧
    (update (⟨{1}, some 0, 1, 2, 1, Mode.Winit⟩ : UI) (Message.closeTab 1)).1.window_id = none ∧
    (update (⟨{1}, some 0, 1, 2, 1, Mode.Winit⟩ : UI) (Message.closeTab 1)).2 =
      [Cmd.winClose 0] := by
  have h := closeTab_last_tab_closes (⟨{1}, some 0, 1, 2, 1, Mode.Winit⟩ : UI) 1 (by decide)
  exact ⟨by decide, h.1, h.2.1, h.2.2 0 rfl⟩

/-- Claim C4.  `CloseTab(i)` for a present id removes `i`; if tabs remain the
least remaining id becomes selected and a deferred `FocusTab` on it is the
only emitted command.  In particular, two `OpenTab`s followed by
`CloseTab 2` leave tab set `{1}` with selected tab `1`. -/
theorem closeTab_present_selects_min (s : UI) (i : Nat) (h : i ∈ s.terminals) :
    (update s (Message.closeTab i)).1.terminals = s.terminals.erase i ∧
    (∀ hne : (s.terminals.erase i).Nonempty,
      (update s (Message.closeTab i)).1.selected_tab = (s.terminals.erase i).min' hne ∧
      (update s (Message.closeTab i)).2 =
        [Cmd.deferFocusTab ((s.terminals.erase i).min' hne)]) ∧
    (runMsgs (start_in_mode Mode.Winit)
        [Message.openTab, Message.openTab, Message.closeTab 2]).terminals = {1} ∧
    (runMsgs (start_in_mode Mode.Winit)
        [Message.openTab, Message.openTab, Message.closeTab 2]).selected_tab = 1 := by
  refine ⟨?_, ?_, by decide, by decide⟩
  · simp only [update, close_tab]
    split
    · rfl
    · exact (close_window_frame _).1
  · intro hne
    simp only [update, close_tab, focus_tab]
    rw [dif_pos hne]
    exact ⟨rfl, rfl⟩

/-- Witness for C4 at tabs `{1, 2}`, closing tab `2`. -/
theorem closeTab_present_selects_min_witness :
    (2 ∈ ({1, 2} : Finset Nat)) ∧
    (update (⟨{1, 2}, none, 2, 3, 0, Mode.Winit⟩ : UI) (Message.closeTab 2)).1.terminals =
      ({1, 2} : Finset Nat).erase 2 ∧
    (update (⟨{1, 2}, none, 2, 3, 0, Mode.Winit⟩ : UI) (Message.closeTab 2)).1.selected_tab =
      (({1, 2} : Finset Nat).erase 2).min' (by decide) := by
  have h := closeTab_present_selects_min (⟨{1, 2}, none, 2, 3, 0, Mode.Winit⟩ : UI) 2 (by decide)
  exact ⟨by decide, h.1, (h.2.1 (by decide)).1⟩

/-- Claim C5.  Hotkey resolution is a deterministic function of the debug
marker and the platform: with the marker it is the dedicated `Pause` key on
every platform; without it, bare `F12` on Linux and `Alt+F12` elsewhere. -/
theorem hotkey_resolution_pure (debug linux d2 l2 : Bool)
    (hd : debug = d2) (hl : linux = l2) :
    Hotkey.default debug linux = Hotkey.default d2 l2 ∧
    Hotkey.default true linux = Hotkey.Pause ∧
    (Hotkey.default true linux).global_hotkey = (none, GHCode.Pause) ∧
    Hotkey.default false true = Hotkey.F12 ∧
    (Hotkey.default false true).global_hotkey = (none, GHCode.F12) ∧
    Hotkey.default false false = Hotkey.AltF12 ∧
    (Hotkey.default false false).global_hotkey = (some GHModifiers.ALT, GHCode.F12) := by
  subst hd hl
  exact ⟨rfl, rfl, rfl, rfl, rfl, rfl, rfl⟩

/-- Witness for C5 at the debug-on-non-Linux input. -/
theorem hotkey_resolution_pure_witness :
    Hotkey.default true false = Hotkey.default true false ∧
    Hotkey.default true false = Hotkey.Pause ∧
    (Hotkey.default true false).global_hotkey = (none, GHCode.Pause) ∧
    Hotkey.default false true = Hotkey.F12 ∧
    (Hotkey.default false true).global_hotkey = (none, GHCode.F12) ∧
    Hotkey.default false false = Hotkey.AltF12 ∧
    (Hotkey.default false false).global_hotkey = (some GHModifiers.ALT, GHCode.F12) :=
  hotkey_resolution_pure true false true false rfl rfl

/-- Claim C6.  The software key filter accepts exactly the ctrl+shift+T
new-tab chord (the character key `T` with both control and shift held) and
the exact (key, modifiers) pair of the resolved hotkey, and rejects every
other pair. -/
theorem software_filter_matches_chord_or_hotkey (hk : Hotkey) (key : Key)
    (modifiers : Modifiers) :
    hk.filter key modifiers = true ↔
      ((key = Key.character "T" ∧ modifiers.control = true ∧ modifiers.shift = true) ∨
        (key = hk.iced.1 ∧ modifiers = hk.iced.2)) := by
  by_cases h1 : key = Key.character "T" ∧ modifiers.control = true ∧ modifiers.shift = true
  · simp [Hotkey.filter, h1]
  · by_cases h2 : key = hk.iced.1 ∧ modifiers = hk.iced.2
    · simp [Hotkey.filter, h1, h2]
    · simp [Hotkey.filter, h1, h2]

/-- Claim C7, counterexample.  The claim says every processed window-opened
acknowledgement issues a window-focus-gain command.  This is false when the
selected tab is not in the tab map: after `Hotkey` (which opens window `0`
and tab `1`) and `CloseTab 1` (which closes the window again), the pending
`WindowOpened 0` acknowledgement produces no command at all. -/
theorem windowOpened_no_command_without_selected_tab :
    (runMsgs (start_in_mode Mode.Winit) [Message.hotkey, Message.closeTab 1]).terminals = ∅ ∧
    (update (runMsgs (start_in_mode Mode.Winit) [Message.hotkey, Message.closeTab 1])
      (Message.windowOpened 0)).2 = [] := by decide

/-- Claim C7, amended.  When a window-opened acknowledgement is processed and
the currently selected tab exists in the tab map, the controller issues the
window-focus-gain command for the opened window batched with a focus command
to the selected tab (concurrent, order-independent tasks); when the selected
tab does not exist, no command is issued.  The state is unchanged either
way. -/
theorem windowOpened_focus_commands (s : UI) (w : Nat) :
    (s.selected_tab ∈ s.terminals →
      update s (Message.windowOpened w) =
        (s, [Cmd.winGainFocus w, Cmd.termFocus s.selected_tab])) ∧
    (s.selected_tab ∉ s.terminals → update s (Message.windowOpened w) = (s, [])) := by
  constructor
  · intro h
    simp [update, h]
  · intro h
    simp [update, h]

/-- Witness for the amended C7 theorem in the post-toggle state. -/
theorem windowOpened_focus_commands_witness :
    (c7State.selected_tab ∈ c7State.terminals) ∧
    update c7State (Message.windowOpened 0) =
      (c7State, [Cmd.winGainFocus 0, Cmd.termFocus 1]) := by
  exact ⟨by decide, (windowOpened_focus_commands c7State 0).1 (by decide)⟩

/-- Claim C8, counterexample.  The claim says every `OpenTab` allocates an id
strictly greater than all previously allocated ids, for every number of
prior allocations, while also calling the counter a 32-bit unsigned integer
incremented once per allocation.  The wrapping `u32` increment makes the
`2 ^ 32`-th allocation (after `4294967295` prior ones) hand out id `0`, which
is not greater than id `1` handed out by the first allocation. -/
theorem tab_id_allocation_wraps :
    allocatedId Mode.Winit 0 = 1 ∧
    allocatedId Mode.Winit 4294967295 = 0 ∧
    ¬ allocatedId Mode.Winit 0 < allocatedId Mode.Winit 4294967295 := by
  have h0 := allocatedId_closed_form Mode.Winit 0
  have h1 := allocatedId_closed_form Mode.Winit 4294967295
  rw [U32] at h0 h1
  norm_num at h0 h1
  exact ⟨h0, h1, by rw [h0, h1]; omega⟩

/-- Claim C8, amended.  Tab-id allocation is strictly monotone for every pair
of allocations made before the 32-bit counter wraps (fewer than `2 ^ 32 - 1`
prior allocations); the counter is bumped by exactly one (mod `2 ^ 32`) per
`open_tab`, never changed by `close_tab`, and every controller transition
either leaves it unchanged or bumps it exactly once — it is never decremented
or reset, so no id is reused before the wrap. -/
theorem tab_id_monotone_before_wrap (m : Mode) (j k : Nat)
    (hjk : j < k) (hk : k < 4294967295) :
    allocatedId m j < allocatedId m k ∧
    (∀ s : UI, (open_tab s).1.new_terminal_id = (s.new_terminal_id + 1) % U32) ∧
    (∀ (s : UI) (id : Nat), (close_tab s id).1.new_terminal_id = s.new_terminal_id) ∧
    (∀ (s : UI) (msg : Message),
      (update s msg).1.new_terminal_id = s.new_terminal_id ∨
      (update s msg).1.new_terminal_id = (s.new_terminal_id + 1) % U32) := by
  refine ⟨?_, fun s => rfl, close_tab_new_terminal_id, ?_⟩
  · rw [allocatedId_closed_form, allocatedId_closed_form]
    simp only [U32]
    omega
  · intro s msg
    cases msg with
    | localTerminal id a =>
      simp only [update]
      split
      · cases a with
        | close => exact Or.inl (close_tab_new_terminal_id s id)
        | run => exact Or.inl rfl
        | none_ => exact Or.inl rfl
      · exact Or.inl rfl
    | openTab => exact Or.inr rfl
    | switchTab id =>
      simp only [update, switch_tab]
      split
      · exact Or.inl rfl
      · exact Or.inl rfl
    | focusTab id =>
      simp only [update]
      split
      · exact Or.inl rfl
      · exact Or.inl rfl
    | closeTab id => exact Or.inl (close_tab_new_terminal_id s id)
    | hotkey =>
      simp only [update]
      split
      · exact Or.inl (close_window_frame s).2.2.1
      · exact open_window_new_terminal_id s
    | windowOpened id =>
      simp only [update]
      split
      · exact Or.inl rfl
      · exact Or.inl rfl
    | closeWindow => exact Or.inl (close_window_frame s).2.2.1
    | windowClosed => exact Or.inl rfl
    | shutdown => exact Or.inl rfl
    | dummy => exact Or.inl rfl

/-- Witness for the amended C8 theorem at the first two allocations. -/
theorem tab_id_monotone_before_wrap_witness :
    0 < 1 ∧ 1 < 4294967295 ∧ allocatedId Mode.Winit 0 < allocatedId Mode.Winit 1 :=
  ⟨by decide, by decide, (tab_id_monotone_before_wrap Mode.Winit 0 1 (by decide) (by decide)).1⟩

/-- Claim C9.  In every state reachable from startup, a non-empty tab map
contains the selected tab id. -/
theorem selected_tab_in_tabs (mode : Mode) (ms : List Message)
    (h : (runMsgs (start_in_mode mode) ms).terminals.Nonempty) :
    (runMsgs (start_in_mode mode) ms).selected_tab ∈
      (runMsgs (start_in_mode mode) ms).terminals := by
  refine selInv_runMsgs ms (start_in_mode mode) ?_ h
  intro hne
  exact absurd hne Finset.not_nonempty_empty

/-- Witness for C9 after a single `OpenTab`. -/
theorem selected_tab_in_tabs_witness :
    (runMsgs (start_in_mode Mode.Winit) [Message.openTab]).terminals.Nonempty ∧
    (runMsgs (start_in_mode Mode.Winit) [Message.openTab]).selected_tab ∈
      (runMsgs (start_in_mode Mode.Winit) [Message.openTab]).terminals :=
  ⟨by decide, selected_tab_in_tabs Mode.Winit [Message.openTab] (by decide)⟩

/-- Claim C10.  Toggling while the window is open closes the window (issuing
`window::close`) and leaves the tab map, the selected tab and the allocation
counter exactly unchanged. -/
theorem hotkey_toggle_from_open_preserves_tabs (s : UI) (w : Nat)
    (h : s.window_id = some w) :
    (update s Message.hotkey).1.terminals = s.terminals ∧
    (update s Message.hotkey).1.selected_tab = s.selected_tab ∧
    (update s Message.hotkey).1.new_terminal_id = s.new_terminal_id ∧
    (update s Message.hotkey).1.window_id = none ∧
    (update s Message.hotkey).2 = [Cmd.winClose w] := by
  have hs : s.window_id.isSome = true := by rw [h]; rfl
  simp only [update, hs, if_true]
  refine ⟨(close_window_frame _).1, (close_window_frame _).2.1, (close_window_frame _).2.2.1,
    (close_window_frame _).2.2.2.1, ?_⟩
  rw [(close_window_frame _).2.2.2.2]
  simp [h]

/-- Witness for C10 at an open window `7` with one tab. -/
theorem hotkey_toggle_from_open_preserves_tabs_witness :
    ((⟨{1}, some 7, 1, 2, 8, Mode.Winit⟩ : UI).window_id = some 7) ∧
    (update (⟨{1}, some 7, 1, 2, 8, Mode.Winit⟩ : UI) Message.hotkey).1.terminals = {1} ∧
    (update (⟨{1}, some 7, 1, 2, 8, Mode.Winit⟩ : UI) Message.hotkey).2 = [Cmd.winClose 7] := by
  have h := hotkey_toggle_from_open_preserves_tabs (⟨{1}, some 7, 1, 2, 8, Mode.Winit⟩ : UI) 7 rfl
  exact ⟨rfl, h.1, h.2.2.2.2⟩

end Frostbyte
